import Mathlib

/-!
Verification development for the GlassBite meal-intake pipeline.

The definitions below are a shallow embedding of the Python sources:
  - `src/services/allergen_service.py` (allergen taxonomy, restriction
    parsing, ingredient detection, meal validation)
  - `src/services/meal_processor.py`  (meal pipeline, daily summary)
  - `src/database_utils.py`           (cancel / delete operations)
  - `src/services/usda_service.py`    (nutrition lookup with fallbacks)
  - `src/services/chatbot_service.py` (restriction add / normalize)
  - `src/app.py`                      (text-message dispatch)

Python floats are modelled as rationals, SQL rows as Lean structures,
the per-(user, date) DailySummary table as a partial map, and the
external services (vision, USDA search) as explicit oracle parameters.
-/

namespace GlassBite

/-! ### String helpers

Python's `s.lower()` and the `in` substring test. -/

def lowerStr (s : String) : String :=
  String.mk (s.data.map Char.toLower)

/-- Does `p` occur at the head of `s`? -/
def startsWithL : List Char → List Char → Bool
  | [], _ => true
  | _ :: _, [] => false
  | p :: ps, c :: cs => p = c && startsWithL ps cs

/-- Does `pat` occur anywhere in `s`? -/
def containsL (pat : List Char) : List Char → Bool
  | [] => startsWithL pat []
  | c :: cs => startsWithL pat (c :: cs) || containsL pat cs

/-- Models Python `pat in s` (substring test). -/
def strContains (pat s : String) : Bool :=
  containsL pat.data s.data

def isSpaceChar (c : Char) : Bool :=
  c = ' ' || c = '\t' || c = '\n' || c = '\r'

/-- Python `str.strip()`: drop whitespace at both ends. -/
def strTrim (s : String) : String :=
  String.mk (((s.data.dropWhile isSpaceChar).reverse.dropWhile isSpaceChar).reverse)

/-- Worker for `splitOnStr`; the fuel argument dominates the length of
the remaining input, so it never runs out on the initial call. -/
def splitOnAux (sep : List Char) : Nat → List Char → List Char → List (List Char)
  | 0, rest, acc => [acc ++ rest]
  | _ + 1, [], acc => [acc]
  | fuel + 1, c :: cs, acc =>
    if startsWithL sep (c :: cs) then
      acc :: splitOnAux sep fuel (List.drop sep.length (c :: cs)) []
    else
      splitOnAux sep fuel cs (acc ++ [c])

/-- Python `s.split(sep)` for a non-empty separator. -/
def splitOnStr (sep s : String) : List String :=
  (splitOnAux sep.data (s.data.length + 1) s.data []).map String.mk

/-- Worker for `strReplace` (same fuel discipline). -/
def replaceAux (pat rep : List Char) : Nat → List Char → List Char
  | 0, s => s
  | _ + 1, [] => []
  | fuel + 1, c :: cs =>
    if startsWithL pat (c :: cs) then
      rep ++ replaceAux pat rep fuel (List.drop pat.length (c :: cs))
    else
      c :: replaceAux pat rep fuel cs

/-- Python `s.replace(pat, rep)` for a non-empty pattern. -/
def strReplace (s pat rep : String) : String :=
  String.mk (replaceAux pat.data rep.data (s.data.length + 1) s.data)

/-- Python `sep.join(parts)`. -/
def joinStr (sep : String) : List String → String
  | [] => ""
  | [x] => x
  | x :: xs => x ++ sep ++ joinStr sep xs

/-- Lexicographic code-point comparison on raw character lists. -/
def leL : List Char → List Char → Bool
  | [], _ => true
  | _ :: _, [] => false
  | a :: as, b :: bs =>
    if a.toNat < b.toNat then true
    else if b.toNat < a.toNat then false
    else leL as bs

/-- Python's string ordering (lexicographic by code point). -/
def strLe (a b : String) : Bool := leL a.data b.data

def strLeRel (a b : String) : Prop := strLe a b = true

instance : DecidableRel strLeRel := fun a b =>
  inferInstanceAs (Decidable (strLe a b = true))

/-! ### Allergen service (`src/services/allergen_service.py`) -/

structure AllergenInfo where
  keywords : List String
  display_name : String
deriving Repr, DecidableEq

/-- The table `AllergenService.allergen_database` (insertion order preserved). -/
def allergenDatabase : List (String × AllergenInfo) :=
  [ ("dairy", ⟨["milk", "cheese", "butter", "cream", "yogurt", "whey", "casein",
                "lactose", "ghee", "paneer", "mozzarella", "cheddar", "parmesan"], "Dairy"⟩),
    ("gluten", ⟨["wheat", "bread", "pasta", "flour", "barley", "rye", "couscous",
                 "seitan", "semolina", "spelt", "noodle", "tortilla", "pita"], "Gluten"⟩),
    ("nuts", ⟨["almond", "walnut", "cashew", "pecan", "pistachio", "hazelnut",
               "macadamia", "peanut", "nut"], "Nuts"⟩),
    ("shellfish", ⟨["shrimp", "crab", "lobster", "prawn", "crawfish", "clam",
                    "mussel", "oyster", "scallop"], "Shellfish"⟩),
    ("fish", ⟨["salmon", "tuna", "cod", "tilapia", "fish", "anchovy", "sardine",
               "halibut", "trout", "bass", "mackerel"], "Fish"⟩),
    ("eggs", ⟨["egg", "omelet", "omelette", "scrambled", "mayonnaise", "meringue"], "Eggs"⟩),
    ("soy", ⟨["soy", "tofu", "edamame", "tempeh", "miso", "soy sauce"], "Soy"⟩),
    ("meat", ⟨["beef", "pork", "chicken", "turkey", "lamb", "veal", "bacon",
               "ham", "sausage", "steak", "meatball", "burger"], "Meat"⟩),
    ("pork", ⟨["pork", "bacon", "ham", "sausage", "prosciutto", "pepperoni"], "Pork"⟩),
    ("alcohol", ⟨["wine", "beer", "vodka", "rum", "whiskey", "sake", "champagne"], "Alcohol"⟩) ]

structure PrefInfo where
  excludes : List String
  display_name : String
deriving Repr, DecidableEq

/-- The table `AllergenService.dietary_preferences`. -/
def dietaryPreferences : List (String × PrefInfo) :=
  [ ("vegetarian", ⟨["meat", "fish", "shellfish"], "Vegetarian"⟩),
    ("vegan", ⟨["meat", "fish", "shellfish", "dairy", "eggs"], "Vegan"⟩),
    ("pescatarian", ⟨["meat"], "Pescatarian"⟩),
    ("halal", ⟨["pork", "alcohol"], "Halal"⟩),
    ("kosher", ⟨["pork", "shellfish"], "Kosher"⟩) ]

/-- Association-list lookup (Python `dict[key]` / `key in dict`). -/
def lookupStr {α : Type} (k : String) : List (String × α) → Option α
  | [] => none
  | (k', v) :: rest => if k = k' then some v else lookupStr k rest

def isAllergenKey (k : String) : Bool := (lookupStr k allergenDatabase).isSome

def isPrefKey (k : String) : Bool := (lookupStr k dietaryPreferences).isSome

structure ParsedRestrictions where
  allergens : List String
  preferences : List String
  display : String
deriving Repr, DecidableEq

/-- Embeds `parse_user_restrictions`: split on commas, classify each token. -/
def parseUserRestrictions (restrictions_string : String) : ParsedRestrictions :=
  if restrictions_string = "" then ⟨[], [], "None"⟩
  else
    let restrictions := (splitOnStr "," restrictions_string).map (fun r => lowerStr (strTrim r))
    let acc := restrictions.foldl
      (fun (ap : List String × List String) r =>
        if isAllergenKey r then (ap.1 ++ [r], ap.2)
        else if isPrefKey r then (ap.1, ap.2 ++ [r])
        else ap)
      ([], [])
    let displays :=
      acc.1.filterMap (fun a => (lookupStr a allergenDatabase).map (·.display_name)) ++
      acc.2.filterMap (fun p => (lookupStr p dietaryPreferences).map (·.display_name))
    ⟨acc.1, acc.2, if displays = [] then "None" else joinStr ", " displays⟩

/-- Set-style insert keeping first-seen order (models Python `set.add`
membership semantics). -/
def insertU (a : String) (l : List String) : List String :=
  if a ∈ l then l else l ++ [a]

structure DetectResult where
  detected_allergens : List String
  detected_ingredients : List String
  confidence : ℚ
deriving Repr, DecidableEq

/-- Embeds `detect_ingredients`: match the food name, then each reported
ingredient, against every allergen's keyword list (case-insensitive
substring). -/
def detectIngredients (food_name : String) (ingredients_list : List String) : DetectResult :=
  let food_lower := lowerStr food_name
  let step1 := allergenDatabase.foldl
    (fun (acc : List String × List String) ai =>
      ai.2.keywords.foldl
        (fun acc2 kw =>
          if strContains kw food_lower then (insertU ai.1 acc2.1, acc2.2 ++ [kw]) else acc2)
        acc)
    ([], [])
  let step2 := ingredients_list.foldl
    (fun (acc : List String × List String) ing =>
      let ingL := lowerStr ing
      allergenDatabase.foldl
        (fun acc2 ai =>
          ai.2.keywords.foldl
            (fun acc3 kw =>
              if strContains kw ingL then
                (insertU ai.1 acc3.1, if ing ∈ acc3.2 then acc3.2 else acc3.2 ++ [ing])
              else acc3)
            acc2)
        acc)
    step1
  ⟨step2.1, step2.2, if ingredients_list ≠ [] then 9/10 else 3/4⟩

/-- A food item as validated by `validate_meal`: name plus the detected
allergen / ingredient sets attached by the pipeline. -/
structure VFood where
  name : String
  detected_allergens : List String
  detected_ingredients : List String
deriving Repr, DecidableEq

/-- The restricted-allergen set: the user's explicit allergens together
with every allergen excluded by one of the user's preferences
(`validate_meal`, restricted set construction). -/
def restrictedSet (ur : ParsedRestrictions) : List String :=
  ur.preferences.foldl
    (fun acc p => match lookupStr p dietaryPreferences with
      | some pi => acc ++ pi.excludes
      | none => acc)
    ur.allergens

structure Violation where
  food_name : String
  allergen : String
  allergen_display : String
  ingredient : String
  severity : String
deriving Repr, DecidableEq

def allergenKeywords (a : String) : List String :=
  match lookupStr a allergenDatabase with
  | some info => info.keywords
  | none => []

def allergenDisplay (a : String) : String :=
  match lookupStr a allergenDatabase with
  | some info => info.display_name
  | none => a

/-- The per-food violation list built inside `validate_meal`'s loop. -/
def foodViolations (ur : ParsedRestrictions) (f : VFood) : List Violation :=
  f.detected_allergens.filterMap (fun a =>
    if a ∈ restrictedSet ur then
      some ⟨f.name, a, allergenDisplay a,
            ((f.detected_ingredients.find? (fun ing =>
                (allergenKeywords a).any (fun kw => strContains kw (lowerStr ing)))).getD a),
            if a ∈ ur.allergens then "allergen" else "preference"⟩
    else none)

structure ValidationResult where
  has_violations : Bool
  violations : List Violation
  safe_foods : List String
deriving Repr, DecidableEq

/-- Embeds `validate_meal`: flag every food whose detected-allergen set meets
the restricted set; the rest are reported safe. -/
def validateMeal (food_items : List VFood) (ur : ParsedRestrictions) : ValidationResult :=
  let violations := (food_items.map (foodViolations ur)).flatten
  let safe := (food_items.filter (fun f => foodViolations ur f = [])).map (·.name)
  ⟨¬ violations = [], violations, safe⟩

/-! ### Data model (`src/models.py`)

Nutrient columns are nullable floats, modelled as `Option ℚ`; only the
seven columns the pipeline reads are carried.  The DailySummary table
has a unique `(user_id, date)` constraint, so it is modelled as a
partial map from that key. -/

structure FoodNutrient where
  calories : Option ℚ
  protein_g : Option ℚ
  carbs_g : Option ℚ
  fat_g : Option ℚ
  fiber_g : Option ℚ
  sugar_g : Option ℚ
  sodium_mg : Option ℚ
deriving Repr, DecidableEq

structure FoodItem where
  id : Nat
  meal_id : Nat
  name : String
  portion_size_grams : ℚ
  confidence_score : ℚ
  nutrients : Option FoodNutrient
deriving Repr, DecidableEq

structure Meal where
  id : Nat
  user_id : Nat
  meal_type : String
  timestamp : Nat
  processing_status : String
deriving Repr, DecidableEq

structure DailySummary where
  total_calories : ℚ
  total_protein : ℚ
  total_carbs : ℚ
  total_fat : ℚ
  total_fiber : ℚ
  total_sugar : ℚ
  total_sodium : ℚ
  meal_count : Int
deriving Repr, DecidableEq

structure UserRec where
  id : Nat
  dietary_restrictions : String
  last_meal_id : Option Nat
deriving Repr, DecidableEq

structure DB where
  users : List UserRec
  meals : List Meal
  items : List FoodItem
  summaries : Nat → Nat → Option DailySummary

/-- Calendar date of a timestamp (the `timestamp.date()` projection). -/
def dateOf (ts : Nat) : Nat := ts / 86400

/-- Embeds `Meal.query.filter_by(...).order_by(Meal.timestamp.desc()).first()`:
the latest meal satisfying `p` (first-listed wins a timestamp tie). -/
def pickLatest (p : Meal → Bool) : List Meal → Option Meal
  | [] => none
  | m :: ms =>
    match pickLatest p ms with
    | none => if p m then some m else none
    | some b => if p m = true ∧ b.timestamp < m.timestamp then some m else some b

/-- Meals awaiting a category reply (`processing_status='analyzed'`,
`meal_type='pending'`). -/
def pendingPred (uid : Nat) (m : Meal) : Bool :=
  decide (m.user_id = uid ∧ m.processing_status = "analyzed" ∧ m.meal_type = "pending")

/-- Committed meals (`processing_status='completed'`). -/
def completedPred (uid : Nat) (m : Meal) : Bool :=
  decide (m.user_id = uid ∧ m.processing_status = "completed")

/-- Meals cancellable before commit (`status in ['pending','analyzed']`). -/
def cancelPred (uid : Nat) (m : Meal) : Bool :=
  decide (m.user_id = uid ∧ (m.processing_status = "pending" ∨ m.processing_status = "analyzed"))

/-- Embeds `FoodItem.query.filter_by(meal_id=mid).all()`. -/
def itemsOf (mid : Nat) (items : List FoodItem) : List FoodItem :=
  items.filter (fun it => decide (it.meal_id = mid))

/-- One running total over a meal's food items; an item without a
nutrient row, or a NULL column, contributes 0 (`nutrients.x or 0`). -/
def sumNut (f : FoodNutrient → ℚ) : List FoodItem → ℚ
  | [] => 0
  | it :: rest => (match it.nutrients with | some n => f n | none => 0) + sumNut f rest

def totCal (l : List FoodItem) : ℚ := sumNut (fun n => n.calories.getD 0) l
def totProt (l : List FoodItem) : ℚ := sumNut (fun n => n.protein_g.getD 0) l
def totCarbs (l : List FoodItem) : ℚ := sumNut (fun n => n.carbs_g.getD 0) l
def totFat (l : List FoodItem) : ℚ := sumNut (fun n => n.fat_g.getD 0) l
def totFiber (l : List FoodItem) : ℚ := sumNut (fun n => n.fiber_g.getD 0) l
def totSugar (l : List FoodItem) : ℚ := sumNut (fun n => n.sugar_g.getD 0) l
def totSodium (l : List FoodItem) : ℚ := sumNut (fun n => n.sodium_mg.getD 0) l

/-! ### Aggregation ledger (`MealProcessor.update_daily_summary`) -/

/-- Embeds `update_daily_summary`: lazily create the `(user, date)` row with
zeros, then add the seven deltas and bump `meal_count`. -/
def updateDailySummary (uid dt : Nat) (c p cb f fi su so : ℚ) (db : DB) : DB :=
  let s0 := (db.summaries uid dt).getD ⟨0, 0, 0, 0, 0, 0, 0, 0⟩
  let s1 : DailySummary :=
    ⟨s0.total_calories + c, s0.total_protein + p, s0.total_carbs + cb, s0.total_fat + f,
     s0.total_fiber + fi, s0.total_sugar + su, s0.total_sodium + so, s0.meal_count + 1⟩
  { db with summaries := fun u d => if u = uid ∧ d = dt then some s1 else db.summaries u d }

/-! ### Pipeline state transitions (`meal_processor.py`, `database_utils.py`) -/

/-- Embeds `complete_meal_processing`: commit the latest awaiting meal under
the given category, then fold its nutrient totals into the day's
summary.  Returns the updated state and the committed meal's id. -/
def completeMealProcessing (uid : Nat) (meal_type : String) (db : DB) : Option (DB × Nat) :=
  match pickLatest (pendingPred uid) db.meals with
  | none => none
  | some meal =>
    let meals1 := db.meals.map (fun m =>
      if m.id = meal.id then { m with meal_type := meal_type, processing_status := "completed" } else m)
    let l := itemsOf meal.id db.items
    let db1 := updateDailySummary uid (dateOf meal.timestamp)
      (totCal l) (totProt l) (totCarbs l) (totFat l) (totFiber l) (totSugar l) (totSodium l)
      { db with meals := meals1 }
    some (db1, meal.id)

/-- Embeds `update_meal_type`: retarget the category of the latest committed
meal; `false` when the user has none. -/
def updateMealType (uid : Nat) (new_meal_type : String) (db : DB) : DB × Bool :=
  match pickLatest (completedPred uid) db.meals with
  | none => (db, false)
  | some meal =>
    ({ db with meals := db.meals.map (fun m =>
        if m.id = meal.id then { m with meal_type := new_meal_type } else m) }, true)

/-- Embeds `cancel_pending_meal`: delete the latest non-committed meal
(cascading to its food items); `false` (state unchanged) when none. -/
def cancelPendingMeal (uid : Nat) (db : DB) : DB × Bool :=
  match pickLatest (cancelPred uid) db.meals with
  | none => (db, false)
  | some pm =>
    ({ db with
        meals := db.meals.filter (fun m => decide (m.id ≠ pm.id)),
        items := db.items.filter (fun it => decide (it.meal_id ≠ pm.id)) }, true)

/-- Embeds `delete_last_meal`: remove the latest committed meal, subtracting
its calories/protein/carbs/fat from the day's summary (clamped at 0),
decrementing `meal_count` (clamped at 0), and repointing the user's
`last_meal_id`; `false` (state unchanged) when none. -/
def deleteLastMeal (uid : Nat) (db : DB) : DB × Bool :=
  match pickLatest (completedPred uid) db.meals with
  | none => (db, false)
  | some last =>
    let dt := dateOf last.timestamp
    let l := itemsOf last.id db.items
    let mc := totCal l
    let mp := totProt l
    let mcb := totCarbs l
    let mf := totFat l
    let summaries1 :=
      match db.summaries uid dt with
      | none => db.summaries
      | some s => fun u d =>
          if u = uid ∧ d = dt then
            some ⟨max 0 (s.total_calories - mc), max 0 (s.total_protein - mp),
                  max 0 (s.total_carbs - mcb), max 0 (s.total_fat - mf),
                  s.total_fiber, s.total_sugar, s.total_sodium,
                  max 0 (s.meal_count - 1)⟩
          else db.summaries u d
    let users1 := db.users.map (fun u =>
      if u.id = uid ∧ u.last_meal_id = some last.id then
        { u with last_meal_id :=
            (pickLatest (fun m => completedPred uid m && decide (m.id ≠ last.id)) db.meals).map (·.id) }
      else u)
    ({ users := users1,
       meals := db.meals.filter (fun m => decide (m.id ≠ last.id)),
       items := db.items.filter (fun it => decide (it.meal_id ≠ last.id)),
       summaries := summaries1 }, true)

/-! ### Recognition gate and category extraction -/

/-- A candidate food as returned by the Vision Recognition Client
(`analyze_food_image`), with the optional ingredient list. -/
structure DetectedFood where
  name : String
  portion_grams : ℚ
  confidence : ℚ
  ingredients : List String
deriving Repr, DecidableEq

def sumConfidence : List DetectedFood → ℚ
  | [] => 0
  | f :: fs => f.confidence + sumConfidence fs

/-- Mean confidence over the candidate list. -/
def meanConfidence (foods : List DetectedFood) : ℚ :=
  sumConfidence foods / foods.length

/-- Embeds `detect_non_food_image`: empty candidate list, or mean confidence
below 0.3, means "no food". -/
def detectNonFoodImage (detected_foods : List DetectedFood) : Bool :=
  if detected_foods = [] then true
  else if meanConfidence detected_foods < 3/10 then true
  else false

/-- Embeds `extract_meal_type_from_text`: keyword / substring matching only
(the source accepts no digit replies). -/
def extractMealTypeFromText (text : String) : Option String :=
  if text = "" then none
  else
    let t := lowerStr text
    if strContains "breakfast" t || strContains "morning" t then some "breakfast"
    else if strContains "lunch" t || strContains "noon" t then some "lunch"
    else if strContains "dinner" t || strContains "supper" t || strContains "evening" t then some "dinner"
    else if strContains "snack" t then some "snack"
    else none

/-! ### `process_meal` (`MealProcessor.process_meal`)

External effects are made explicit: the Vision result is an input, the
Nutrient Lookup Client is an oracle parameter whose invocations are
recorded, and outbound messages are collected as structured values. -/

/-- A nutrition lookup result: the main dict entries plus the
`extra_nutrients` sub-dict, both keyed by nutrient name. -/
structure NutRes where
  main : List (String × ℚ)
  extra : List (String × ℚ)
deriving Repr, DecidableEq

/-- One outbound message of `process_meal`; formatted text that claims
never inspect is carried as structured data. -/
inductive OutMsg
  | text (s : String)
  | allergenAlert (vr : ValidationResult)
  | askCategory (food_names : List String) (total_calories total_protein : ℚ)
deriving Repr, DecidableEq

def analyzingMsg : OutMsg := OutMsg.text "Analyzing your meal..."

def nonFoodMsg : OutMsg :=
  OutMsg.text "I don't see any food in this image. Please send a clear photo of your meal."

/-- The allergen annotation `process_meal` attaches to each detected
food before validation (loop over `detected_foods` in step 4.5). -/
def toVFood (f : DetectedFood) : VFood :=
  let det := detectIngredients f.name f.ingredients
  ⟨f.name, det.detected_allergens, det.detected_ingredients⟩

/-- Result of a `process_meal` run: final state, the `(name, grams)`
arguments of every Nutrient Lookup Client call, and what was sent. -/
structure PMResult where
  db : DB
  lookupCalls : List (String × ℚ)
  sent : List OutMsg

def setMealStatus (mid : Nat) (st : String) (meals : List Meal) : List Meal :=
  meals.map (fun m => if m.id = mid then { m with processing_status := st } else m)

/-- The FoodNutrient row built from a lookup result's dict `get`s. -/
def nutrientRowOf (n : NutRes) : FoodNutrient :=
  ⟨lookupStr "calories" n.main, lookupStr "protein_g" n.main, lookupStr "carbs_g" n.main,
   lookupStr "fat_g" n.main, lookupStr "fiber_g" n.main, lookupStr "sugar_g" n.main,
   lookupStr "sodium_mg" n.main⟩

/-- The per-food persistence loop of `process_meal` step 5: call the
Nutrient Lookup Client, and on a result persist FoodItem+FoodNutrient. -/
def lookupLoop (lookup : String → ℚ → Option NutRes) (itemBase : Nat) (mid : Nat) :
    List DetectedFood → List FoodItem × List (String × ℚ) × List String
  | [] => ([], [], [])
  | f :: fs =>
    let rest := lookupLoop lookup (itemBase + 1) mid fs
    match lookup f.name f.portion_grams with
    | some n =>
      (⟨itemBase, mid, f.name, f.portion_grams, f.confidence, some (nutrientRowOf n)⟩ :: rest.1,
       (f.name, f.portion_grams) :: rest.2.1,
       f.name :: rest.2.2)
    | none => (rest.1, (f.name, f.portion_grams) :: rest.2.1, rest.2.2)

/-- Embeds `process_meal`: create a pending meal, gate on the non-food check,
then on the allergen screen, and only then look up nutrition and
persist food rows, ending `analyzed`/`pending` awaiting the category. -/
def processMeal (user : UserRec) (mid ts : Nat) (initType : String)
    (detected_foods : List DetectedFood) (lookup : String → ℚ → Option NutRes)
    (itemBase : Nat) (db : DB) : PMResult :=
  let meal0 : Meal := ⟨mid, user.id, initType, ts, "pending"⟩
  let dbA : DB := { db with meals := db.meals ++ [meal0] }
  if detectNonFoodImage detected_foods then
    ⟨{ dbA with meals := setMealStatus mid "failed" dbA.meals }, [], [analyzingMsg, nonFoodMsg]⟩
  else
    let ur := parseUserRestrictions user.dietary_restrictions
    let foodsWA := detected_foods.map toVFood
    let vr := validateMeal foodsWA ur
    if vr.has_violations then
      ⟨{ dbA with meals := setMealStatus mid "failed" dbA.meals }, [], [analyzingMsg, OutMsg.allergenAlert vr]⟩
    else
      let loop := lookupLoop lookup itemBase mid detected_foods
      let db2 : DB :=
        { dbA with
            meals := dbA.meals.map (fun m =>
              if m.id = mid then { m with processing_status := "analyzed", meal_type := "pending" } else m),
            items := dbA.items ++ loop.1 }
      let newItems := loop.1
      ⟨db2, loop.2.1,
       [analyzingMsg,
        OutMsg.askCategory loop.2.2 (totCal newItems) (totProt newItems)]⟩

/-! ### Text-message dispatch (`app.py`, `whatsapp_webhook` text branch) -/

/-- Which reply branch the webhook took (each constructor corresponds
to one `send_whatsapp_message` site / handler in `app.py`). -/
inductive Outcome
  | completed (mid : Nat)
  | completeFailed
  | reprompt
  | typeChanged
  | noRecentMeal
  | changePrompt
  | chatbot
deriving Repr, DecidableEq

/-- The re-prompt literal sent for an unrecognized category reply. -/
def repromptText : String :=
  "Please reply with: breakfast, lunch, dinner, or snack. You can also use numbers 1 through 4."

/-- The text-message branch of `whatsapp_webhook`: a pending analyzed
meal routes the text as a category reply; otherwise a "change to"
message retargets the last committed meal's category. -/
def handleIncomingText (user : UserRec) (body : String) (db : DB) : DB × Outcome :=
  let message_text := strTrim body
  match pickLatest (pendingPred user.id) db.meals with
  | some _ =>
    match extractMealTypeFromText message_text with
    | some ty =>
      match completeMealProcessing user.id ty db with
      | some (db1, mid) => (db1, Outcome.completed mid)
      | none => (db, Outcome.completeFailed)
    | none => (db, Outcome.reprompt)
  | none =>
    if strContains "change to" (lowerStr message_text) then
      match extractMealTypeFromText message_text with
      | some ty =>
        match updateMealType user.id ty db with
        | (db1, true) => (db1, Outcome.typeChanged)
        | (_, false) => (db, Outcome.noRecentMeal)
      | none => (db, Outcome.changePrompt)
    else (db, Outcome.chatbot)

/-! ### Nutrient lookup (`src/services/usda_service.py`)

The external search call is an oracle parameter; `none` stands for both
"API error" and "no foods in the response" (`_search_food` returns
`None` in both cases, and the outer `except` also lands in the
estimation fallback). -/

/-- One entry of a USDA `foodNutrients` array. -/
structure RawNutrient where
  nutrientId : String
  nutrientName : String
  value : ℚ
  unitName : String
deriving Repr, DecidableEq

/-- A USDA search hit (only the parts `_extract_nutrients` reads). -/
structure FoodDataJson where
  foodNutrients : List RawNutrient
deriving Repr, DecidableEq

/-- The table `USDAService.fallback_foods` (per-100g values, four keys each). -/
def fallbackFoods : List (String × List (String × ℚ)) :=
  [ ("coffee", [("calories", 2), ("protein_g", 3/10), ("carbs_g", 0), ("fat_g", 0)]),
    ("black coffee", [("calories", 2), ("protein_g", 3/10), ("carbs_g", 0), ("fat_g", 0)]),
    ("water", [("calories", 0), ("protein_g", 0), ("carbs_g", 0), ("fat_g", 0)]),
    ("tea", [("calories", 2), ("protein_g", 0), ("carbs_g", 7/10), ("fat_g", 0)]),
    ("green tea", [("calories", 2), ("protein_g", 1/2), ("carbs_g", 0), ("fat_g", 0)]),
    ("diet soda", [("calories", 0), ("protein_g", 0), ("carbs_g", 0), ("fat_g", 0)]),
    ("sparkling water", [("calories", 0), ("protein_g", 0), ("carbs_g", 0), ("fat_g", 0)]) ]

/-- Python dict assignment `d[k] = v` on an association list. -/
def setVal (k : String) (v : ℚ) : List (String × ℚ) → List (String × ℚ)
  | [] => [(k, v)]
  | (k', v') :: rest => if k' = k then (k, v) :: rest else (k', v') :: setVal k v rest

/-- The map `target_nutrient_ids` of `_extract_nutrients`. -/
def targetNutrientIds : List (String × String) :=
  [ ("1092", "potassium_mg"), ("1087", "calcium_mg"), ("1089", "iron_mg"),
    ("1162", "vitamin_c_mg"), ("1114", "vitamin_d_ug"), ("1106", "vitamin_a_ug"),
    ("1178", "vitamin_b12_ug"), ("1090", "magnesium_mg"), ("1095", "zinc_mg"),
    ("1091", "phosphorus_mg"), ("1253", "cholesterol_mg"),
    ("1258", "saturated_fat_g"), ("1292", "monounsaturated_fat_g"),
    ("1293", "polyunsaturated_fat_g"), ("1177", "folate_ug"),
    ("1175", "vitamin_b6_mg"), ("1180", "choline_mg"), ("1103", "selenium_ug") ]

/-- One iteration of `_extract_nutrients`'s loop over `foodNutrients`. -/
def extractStep (acc : List (String × ℚ) × List (String × ℚ)) (nr : RawNutrient) :
    List (String × ℚ) × List (String × ℚ) :=
  if nr.nutrientId = "1008" ∧ nr.unitName = "KCAL" then (setVal "calories" nr.value acc.1, acc.2)
  else if nr.nutrientId = "1003" then (setVal "protein_g" nr.value acc.1, acc.2)
  else if nr.nutrientId = "1005" then (setVal "carbs_g" nr.value acc.1, acc.2)
  else if nr.nutrientId = "1004" then (setVal "fat_g" nr.value acc.1, acc.2)
  else if nr.nutrientId = "1079" then (setVal "fiber_g" nr.value acc.1, acc.2)
  else if nr.nutrientId = "2000" then (setVal "sugar_g" nr.value acc.1, acc.2)
  else if nr.nutrientId = "1093" then (setVal "sodium_mg" nr.value acc.1, acc.2)
  else
    match lookupStr nr.nutrientId targetNutrientIds with
    | some key => (acc.1, setVal key nr.value acc.2)
    | none => acc

/-- The seven main keys, initialized to 0 before the extraction loop. -/
def mainInit : List (String × ℚ) :=
  [("calories", 0), ("protein_g", 0), ("carbs_g", 0), ("fat_g", 0),
   ("fiber_g", 0), ("sugar_g", 0), ("sodium_mg", 0)]

def scaleVals (factor : ℚ) (l : List (String × ℚ)) : List (String × ℚ) :=
  l.map (fun kv => (kv.1, kv.2 * factor))

/-- Embeds `_extract_nutrients`: collect per-100g values, then scale by
`portion_grams / 100`. -/
def extractNutrients (food_data : FoodDataJson) (portion_grams : ℚ) : NutRes :=
  let r := food_data.foodNutrients.foldl extractStep (mainInit, [])
  ⟨scaleVals (portion_grams / 100) r.1, scaleVals (portion_grams / 100) r.2⟩

/-- Embeds `_check_fallback`: exact (lower-cased) fallback-table hit, scaled. -/
def checkFallback (food_name : String) (portion_grams : ℚ) : Option NutRes :=
  (lookupStr (lowerStr food_name) fallbackFoods).map
    (fun base => ⟨scaleVals (portion_grams / 100) base, []⟩)

def cookingMethods : List String :=
  ["grilled", "fried", "baked", "roasted", "steamed", "boiled", "sauteed",
   "pan-fried", "deep-fried"]

/-- Embeds `_generalize_food_name`: drop cooking-method words. -/
def generalizeFoodName (food_name : String) : String :=
  let words := (splitOnStr " " (lowerStr food_name)).filter (· ≠ "")
  joinStr " " (words.filter (fun w => ¬ w ∈ cookingMethods))

def anyWordIn (ws : List String) (s : String) : Bool :=
  ws.any (fun w => strContains w s)

/-- The per-100g base table of `_estimate_nutrition` (main dict,
`extra_nutrients` dict). -/
def estimateBase (food_name : String) : List (String × ℚ) × List (String × ℚ) :=
  if anyWordIn ["chicken", "turkey", "lean meat"] (lowerStr food_name) then
    ([("calories", 165), ("protein_g", 31), ("carbs_g", 0), ("fat_g", 18/5)],
     [("fiber_g", 0), ("sugar_g", 0), ("sodium_mg", 70)])
  else if anyWordIn ["beef", "steak", "pork"] (lowerStr food_name) then
    ([("calories", 250), ("protein_g", 26), ("carbs_g", 0), ("fat_g", 15)],
     [("fiber_g", 0), ("sugar_g", 0), ("sodium_mg", 60)])
  else if anyWordIn ["fish", "salmon", "tuna"] (lowerStr food_name) then
    ([("calories", 206), ("protein_g", 22), ("carbs_g", 0), ("fat_g", 12)],
     [("fiber_g", 0), ("sugar_g", 0), ("sodium_mg", 50)])
  else if anyWordIn ["rice", "pasta", "noodles"] (lowerStr food_name) then
    ([("calories", 130), ("protein_g", 27/10), ("carbs_g", 28), ("fat_g", 3/10)],
     [("fiber_g", 2/5), ("sugar_g", 1/10), ("sodium_mg", 1)])
  else if anyWordIn ["bread", "toast"] (lowerStr food_name) then
    ([("calories", 265), ("protein_g", 9), ("carbs_g", 49), ("fat_g", 16/5)],
     [("fiber_g", 27/10), ("sugar_g", 5), ("sodium_mg", 491)])
  else if anyWordIn ["egg"] (lowerStr food_name) then
    ([("calories", 155), ("protein_g", 13), ("carbs_g", 11/10), ("fat_g", 11)],
     [("fiber_g", 0), ("sugar_g", 11/10), ("sodium_mg", 124)])
  else if anyWordIn ["vegetable", "broccoli", "carrot", "lettuce", "salad"] (lowerStr food_name) then
    ([("calories", 35), ("protein_g", 14/5), ("carbs_g", 7), ("fat_g", 2/5)],
     [("fiber_g", 13/5), ("sugar_g", 17/10), ("sodium_mg", 33)])
  else if anyWordIn ["fruit", "apple", "banana", "orange"] (lowerStr food_name) then
    ([("calories", 52), ("protein_g", 3/10), ("carbs_g", 14), ("fat_g", 1/5)],
     [("fiber_g", 12/5), ("sugar_g", 10), ("sodium_mg", 1)])
  else
    ([("calories", 150), ("protein_g", 5), ("carbs_g", 20), ("fat_g", 5)],
     [("fiber_g", 2), ("sugar_g", 3), ("sodium_mg", 100)])

/-- Embeds `_estimate_nutrition`: category estimate scaled to the portion. -/
def estimateNutrition (food_name : String) (portion_grams : ℚ) : NutRes :=
  let b := estimateBase food_name
  ⟨scaleVals (portion_grams / 100) b.1, scaleVals (portion_grams / 100) b.2⟩

/-- Embeds `get_nutrition_data`: fallback table, then the search (retrying a
generalized name), else the estimation fallback — never "nothing". -/
def getNutritionData (search : String → Option (List FoodDataJson))
    (food_name : String) (portion_grams : ℚ) : NutRes :=
  match checkFallback food_name portion_grams with
  | some r => r
  | none =>
    let r1 := (search food_name).getD []
    let r2 := if r1 = [] then (search (generalizeFoodName food_name)).getD [] else r1
    match r2 with
    | [] => estimateNutrition food_name portion_grams
    | fd :: _ => extractNutrients fd portion_grams

/-! ### Restriction management (`src/services/chatbot_service.py`) -/

/-- Embeds `_normalize_restrictions`: lower-case, strip, drop empties,
deduplicate, sort, re-join with commas. -/
def normalizeRestrictions (restrictions_string : String) : String :=
  if restrictions_string = "" then ""
  else
    let unique := (((splitOnStr "," restrictions_string).map
      (fun r => lowerStr (strTrim r))).filter (· ≠ "")).dedup
    joinStr "," (unique.insertionSort strLeRel)

/-- The token-extraction loop at the top of `handle_add_restriction`. -/
def extractAddToken (message_text : String) : Option String :=
  let ml := lowerStr message_text
  match ["add ", "add restriction ", "add allergy ", "add allergen "].find?
      (fun kw => strContains kw ml) with
  | none => none
  | some kw =>
    some (strReplace (strReplace (strReplace (strTrim ((splitOnStr kw ml).getD 1 ""))
      " restriction" "") " allergy" "") " allergen" "")

/-- The current restriction list as `handle_add_restriction` reads it:
split on commas, strip, drop empties. -/
def currentListOf (u : UserRec) : List String :=
  ((splitOnStr "," u.dietary_restrictions).map strTrim).filter (· ≠ "")

/-- The string `handle_add_restriction` would store after appending
`tok`: the normalized join of the current list plus the token. -/
def addNormalized (u : UserRec) (tok : String) : String :=
  normalizeRestrictions (joinStr "," (currentListOf u ++ [tok]))

/-- Which reply `handle_add_restriction` produced. -/
inductive AddReply
  | specifyPrompt
  | alreadyPresent (tok : String)
  | notRecognized (tok : String)
  | added (tok : String) (display : String)
deriving Repr, DecidableEq

/-- Embeds `handle_add_restriction`: extract the token, append it to the
current list, normalize; commit only when the normalized result parses
to at least one recognized allergen or preference. -/
def handleAddRestriction (u : UserRec) (message_text : String) : UserRec × AddReply :=
  match extractAddToken message_text with
  | none => (u, AddReply.specifyPrompt)
  | some tok =>
    if tok = "" then (u, AddReply.specifyPrompt)
    else
      let current_list := currentListOf u
      if tok ∈ current_list then (u, AddReply.alreadyPresent tok)
      else
        let new_restrictions := addNormalized u tok
        let parsed := parseUserRestrictions new_restrictions
        if parsed.allergens = [] ∧ parsed.preferences = [] then
          (u, AddReply.notRecognized tok)
        else
          ({ u with dietary_restrictions := new_restrictions },
           AddReply.added tok parsed.display)

/-- The committed meal's processing status, as stored. -/
def statusOf (mid : Nat) (db : DB) : Option String :=
  (db.meals.find? (fun m => decide (m.id = mid))).map (·.processing_status)

/-! ### Supporting lemmas -/

theorem pickLatest_mem {p : Meal → Bool} {l : List Meal} {m : Meal}
    (h : pickLatest p l = some m) : m ∈ l := by
  induction l with
  | nil => simp [pickLatest] at h
  | cons a l ih =>
    unfold pickLatest at h
    split at h
    next =>
      split at h
      · cases h; exact List.mem_cons_self _ _
      · cases h
    next b heq =>
      split at h
      · cases h; exact List.mem_cons_self _ _
      · cases h; exact List.mem_cons_of_mem _ (ih heq)

theorem pickLatest_prop {p : Meal → Bool} {l : List Meal} {m : Meal}
    (h : pickLatest p l = some m) : p m = true := by
  induction l with
  | nil => simp [pickLatest] at h
  | cons a l ih =>
    unfold pickLatest at h
    split at h
    next =>
      split at h
      next hp => cases h; exact hp
      next => cases h
    next b heq =>
      split at h
      next hc => cases h; exact hc.1
      next => cases h; exact ih heq

theorem pickLatest_none {p : Meal → Bool} {l : List Meal}
    (h : pickLatest p l = none) : ∀ x ∈ l, p x = false := by
  induction l with
  | nil => intro x hx; cases hx
  | cons a l ih =>
    unfold pickLatest at h
    split at h
    next heq =>
      split at h
      next => cases h
      next hp =>
        intro x hx
        rcases List.mem_cons.mp hx with rfl | hx'
        · simpa using hp
        · exact ih heq x hx'
    next b heq =>
      split at h
      · cases h
      · cases h

theorem pickLatest_max {p : Meal → Bool} {l : List Meal} {m : Meal}
    (h : pickLatest p l = some m) :
    ∀ x ∈ l, p x = true → x.timestamp ≤ m.timestamp := by
  induction l generalizing m with
  | nil => simp [pickLatest] at h
  | cons a l ih =>
    unfold pickLatest at h
    split at h
    next heq =>
      split at h
      next hp =>
        cases h
        intro x hx hpx
        rcases List.mem_cons.mp hx with rfl | hx'
        · exact le_refl _
        · exact absurd hpx (by simp [pickLatest_none heq x hx'])
      next => cases h
    next b heq =>
      split at h
      next hc =>
        cases h
        intro x hx hpx
        rcases List.mem_cons.mp hx with rfl | hx'
        · exact le_refl _
        · exact le_trans (ih heq x hx' hpx) (le_of_lt hc.2)
      next hc =>
        cases h
        intro x hx hpx
        rcases List.mem_cons.mp hx with rfl | hx'
        · exact le_of_not_lt (fun hlt => hc ⟨hpx, hlt⟩)
        · exact ih heq x hx' hpx

theorem mem_restrictedSet_aux (prefs : List String) (init : List String) (a : String) :
    a ∈ prefs.foldl
        (fun acc p => match lookupStr p dietaryPreferences with
          | some pi => acc ++ pi.excludes
          | none => acc) init ↔
      a ∈ init ∨ ∃ p ∈ prefs, ∃ pi,
        lookupStr p dietaryPreferences = some pi ∧ a ∈ pi.excludes := by
  induction prefs generalizing init with
  | nil => simp
  | cons q prefs ih =>
    simp only [List.foldl_cons]
    cases hq : lookupStr q dietaryPreferences with
    | none =>
      rw [ih]
      constructor
      · rintro (h | ⟨p, hp, pi, hpi, ha⟩)
        · exact Or.inl h
        · exact Or.inr ⟨p, List.mem_cons_of_mem _ hp, pi, hpi, ha⟩
      · rintro (h | ⟨p, hp, pi, hpi, ha⟩)
        · exact Or.inl h
        · rcases List.mem_cons.mp hp with rfl | hp'
          · rw [hq] at hpi; cases hpi
          · exact Or.inr ⟨p, hp', pi, hpi, ha⟩
    | some pe =>
      rw [ih]
      constructor
      · rintro (h | ⟨p, hp, pi, hpi, ha⟩)
        · rcases List.mem_append.mp h with h' | h'
          · exact Or.inl h'
          · exact Or.inr ⟨q, List.mem_cons_self _ _, pe, hq, h'⟩
        · exact Or.inr ⟨p, List.mem_cons_of_mem _ hp, pi, hpi, ha⟩
      · rintro (h | ⟨p, hp, pi, hpi, ha⟩)
        · exact Or.inl (List.mem_append.mpr (Or.inl h))
        · rcases List.mem_cons.mp hp with rfl | hp'
          · rw [hq] at hpi
            cases hpi
            exact Or.inl (List.mem_append.mpr (Or.inr ha))
          · exact Or.inr ⟨p, hp', pi, hpi, ha⟩

theorem mem_restrictedSet (ur : ParsedRestrictions) (a : String) :
    a ∈ restrictedSet ur ↔
      a ∈ ur.allergens ∨ ∃ p ∈ ur.preferences, ∃ pi,
        lookupStr p dietaryPreferences = some pi ∧ a ∈ pi.excludes := by
  unfold restrictedSet
  exact mem_restrictedSet_aux ur.preferences ur.allergens a

theorem foodViolations_ne_nil (ur : ParsedRestrictions) (f : VFood) :
    foodViolations ur f ≠ [] ↔ ∃ a ∈ f.detected_allergens, a ∈ restrictedSet ur := by
  unfold foodViolations
  rw [ne_eq, List.filterMap_eq_nil_iff]
  push_neg
  constructor
  · rintro ⟨a, ha, hne⟩
    refine ⟨a, ha, ?_⟩
    by_cases hm : a ∈ restrictedSet ur
    · exact hm
    · exact absurd (if_neg hm) hne
  · rintro ⟨a, ha, hm⟩
    exact ⟨a, ha, by rw [if_pos hm]; exact Option.some_ne_none _⟩

theorem mem_foodViolations {ur : ParsedRestrictions} {f : VFood} {v : Violation}
    (h : v ∈ foodViolations ur f) :
    v.allergen ∈ f.detected_allergens ∧ v.allergen ∈ restrictedSet ur ∧
      v.food_name = f.name ∧
      v.severity = if v.allergen ∈ ur.allergens then "allergen" else "preference" := by
  unfold foodViolations at h
  rcases List.mem_filterMap.mp h with ⟨a, ha, hfa⟩
  by_cases hm : a ∈ restrictedSet ur
  · rw [if_pos hm] at hfa
    cases hfa
    exact ⟨ha, hm, rfl, rfl⟩
  · rw [if_neg hm] at hfa
    cases hfa

theorem validateMeal_has_violations_iff (food_items : List VFood) (ur : ParsedRestrictions) :
    (validateMeal food_items ur).has_violations = true ↔
      ∃ f ∈ food_items, ∃ a ∈ f.detected_allergens, a ∈ restrictedSet ur := by
  unfold validateMeal
  simp only [decide_eq_true_eq, ne_eq]
  rw [show (¬ (List.map (foodViolations ur) food_items).flatten = []) ↔
        ¬ ∀ l ∈ List.map (foodViolations ur) food_items, l = [] by
      rw [List.flatten_eq_nil_iff]]
  push_neg
  constructor
  · rintro ⟨l, hl, hne⟩
    rcases List.mem_map.mp hl with ⟨f, hf, rfl⟩
    exact ⟨f, hf, (foodViolations_ne_nil ur f).mp hne⟩
  · rintro ⟨f, hf, ha⟩
    exact ⟨foodViolations ur f, List.mem_map_of_mem _ hf,
      (foodViolations_ne_nil ur f).mpr ha⟩

theorem mem_validateMeal_violations {food_items : List VFood} {ur : ParsedRestrictions}
    {v : Violation} (h : v ∈ (validateMeal food_items ur).violations) :
    ∃ f ∈ food_items, v ∈ foodViolations ur f := by
  unfold validateMeal at h
  simp only at h
  rcases List.mem_flatten.mp h with ⟨l, hl, hv⟩
  rcases List.mem_map.mp hl with ⟨f, hf, rfl⟩
  exact ⟨f, hf, hv⟩

theorem find_after_setStatus (mid : Nat) (st : String) (meals : List Meal) (m0 : Meal)
    (hm0 : m0.id = mid) (h : ∀ m ∈ meals, m.id ≠ mid) :
    (setMealStatus mid st (meals ++ [m0])).find? (fun m => decide (m.id = mid)) =
      some { m0 with processing_status := st } := by
  induction meals with
  | nil =>
    simp [setMealStatus, List.find?, hm0]
  | cons a l ih =>
    have ha : a.id ≠ mid := h a (List.mem_cons_self _ _)
    simp only [setMealStatus, List.cons_append, List.map_cons, List.find?_cons, if_neg ha]
    have : (decide (a.id = mid)) = false := by simp [ha]
    rw [this]
    exact ih (fun m hm => h m (List.mem_cons_of_mem _ hm))

theorem detectNonFoodImage_iff (foods : List DetectedFood) :
    detectNonFoodImage foods = true ↔ foods = [] ∨ meanConfidence foods < 3/10 := by
  unfold detectNonFoodImage
  by_cases h0 : foods = []
  · simp [h0]
  · rw [if_neg h0]
    by_cases hm : meanConfidence foods < 3/10
    · simp [hm, h0]
    · simp [hm, h0]

/-! ### Claim theorems -/

/-- C9: meal validation builds the restricted set as the union of the
user's explicit allergens and the allergen categories excluded by each
dietary preference (vegan contributing meat/fish/shellfish/dairy/eggs);
a food is flagged iff its detected-allergen set meets that restricted
set, and each violation's severity is "allergen" exactly when the
matched allergen is one of the user's explicit allergens, else
"preference". -/
theorem C9_validation_semantics (food_items : List VFood) (ur : ParsedRestrictions)
    (hkeys : ∀ f ∈ food_items, ∀ a ∈ f.detected_allergens, isAllergenKey a = true) :
    (∀ a, a ∈ restrictedSet ur ↔
      a ∈ ur.allergens ∨ ∃ p ∈ ur.preferences, ∃ pi,
        lookupStr p dietaryPreferences = some pi ∧ a ∈ pi.excludes) ∧
    lookupStr "vegan" dietaryPreferences =
      some ⟨["meat", "fish", "shellfish", "dairy", "eggs"], "Vegan"⟩ ∧
    ((validateMeal food_items ur).has_violations = true ↔
      ∃ f ∈ food_items, ∃ a ∈ f.detected_allergens, a ∈ restrictedSet ur) ∧
    (∀ f ∈ food_items,
      (foodViolations ur f ≠ [] ↔ ∃ a ∈ f.detected_allergens, a ∈ restrictedSet ur)) ∧
    (∀ v ∈ (validateMeal food_items ur).violations,
      v.severity = if v.allergen ∈ ur.allergens then "allergen" else "preference") := by
  refine ⟨mem_restrictedSet ur, by decide, validateMeal_has_violations_iff food_items ur,
    fun f _ => foodViolations_ne_nil ur f, ?_⟩
  intro v hv
  rcases mem_validateMeal_violations hv with ⟨f, _, hvf⟩
  exact (mem_foodViolations hvf).2.2.2

def vfoodW : VFood := ⟨"shrimp pasta", ["shellfish", "gluten"], ["shrimp", "pasta"]⟩

def urW : ParsedRestrictions := parseUserRestrictions "shellfish,vegan"

/-- Witness for C9 at a concrete meal and restriction set. -/
theorem C9_witness :
    (∀ f ∈ [vfoodW], ∀ a ∈ f.detected_allergens, isAllergenKey a = true) ∧
    ((validateMeal [vfoodW] urW).has_violations = true ↔
      ∃ f ∈ [vfoodW], ∃ a ∈ f.detected_allergens, a ∈ restrictedSet urW) :=
  ⟨by decide, (C9_validation_semantics [vfoodW] urW (by decide)).2.2.1⟩

/-- C6: cancel touches only the latest non-committed (`pending` or
`analyzed`) meal of the user and never the daily summaries; delete
targets only the latest committed (`completed`) meal; both are failing
no-ops when no qualifying meal exists. -/
theorem C6_cancel_delete_scope (uid : Nat) (db : DB) :
    ((cancelPendingMeal uid db).1.summaries = db.summaries) ∧
    ((cancelPendingMeal uid db).1.users = db.users) ∧
    (pickLatest (cancelPred uid) db.meals = none → cancelPendingMeal uid db = (db, false)) ∧
    (∀ m, pickLatest (cancelPred uid) db.meals = some m →
      (cancelPendingMeal uid db).2 = true ∧ m ∈ db.meals ∧ m.user_id = uid ∧
      (m.processing_status = "pending" ∨ m.processing_status = "analyzed") ∧
      (cancelPendingMeal uid db).1.meals = db.meals.filter (fun x => decide (x.id ≠ m.id))) ∧
    (pickLatest (completedPred uid) db.meals = none → deleteLastMeal uid db = (db, false)) ∧
    (∀ m, pickLatest (completedPred uid) db.meals = some m →
      (deleteLastMeal uid db).2 = true ∧ m ∈ db.meals ∧ m.user_id = uid ∧
      m.processing_status = "completed" ∧
      (∀ x ∈ db.meals, completedPred uid x = true → x.timestamp ≤ m.timestamp) ∧
      (deleteLastMeal uid db).1.meals = db.meals.filter (fun x => decide (x.id ≠ m.id))) := by
  refine ⟨?_, ?_, ?_, ?_, ?_, ?_⟩
  · unfold cancelPendingMeal
    cases h : pickLatest (cancelPred uid) db.meals <;> simp
  · unfold cancelPendingMeal
    cases h : pickLatest (cancelPred uid) db.meals <;> simp
  · intro h
    unfold cancelPendingMeal
    rw [h]
  · intro m h
    have hp := pickLatest_prop h
    have hmem := pickLatest_mem h
    unfold cancelPred at hp
    rw [decide_eq_true_eq] at hp
    unfold cancelPendingMeal
    rw [h]
    exact ⟨rfl, hmem, hp.1, hp.2, rfl⟩
  · intro h
    unfold deleteLastMeal
    rw [h]
  · intro m h
    have hp := pickLatest_prop h
    have hmem := pickLatest_mem h
    unfold completedPred at hp
    rw [decide_eq_true_eq] at hp
    have hmax := pickLatest_max h
    unfold deleteLastMeal
    rw [h]
    exact ⟨rfl, hmem, hp.1, hp.2, hmax, rfl⟩

def dbC6w : DB := ⟨[⟨1, "", none⟩], [⟨1, 1, "lunch", 100, "failed"⟩], [], fun _ _ => none⟩

/-- Witness for C6: with no cancellable and no committed meal, both
operations report failure and leave the state untouched. -/
theorem C6_witness :
    cancelPendingMeal 1 dbC6w = (dbC6w, false) ∧ deleteLastMeal 1 dbC6w = (dbC6w, false) :=
  ⟨(C6_cancel_delete_scope 1 dbC6w).2.2.1 (by decide),
   (C6_cancel_delete_scope 1 dbC6w).2.2.2.2.1 (by decide)⟩

/-- All DailySummary fields (totals and meal count) are non-negative. -/
def sumNonneg (s : DailySummary) : Prop :=
  0 ≤ s.total_calories ∧ 0 ≤ s.total_protein ∧ 0 ≤ s.total_carbs ∧ 0 ≤ s.total_fat ∧
  0 ≤ s.total_fiber ∧ 0 ≤ s.total_sugar ∧ 0 ≤ s.total_sodium ∧ 0 ≤ s.meal_count

instance (s : DailySummary) : Decidable (sumNonneg s) := by
  unfold sumNonneg
  infer_instance

/-- C5: if every DailySummary row is non-negative in every field before
a `delete_last_meal`, every row is still non-negative in every field
afterwards — the reversal clamps at zero, and untouched fields keep
their old values. -/
theorem C5_delete_keeps_summary_nonneg (uid : Nat) (db : DB)
    (hpre : ∀ u d s, db.summaries u d = some s → sumNonneg s) :
    ∀ u d s, (deleteLastMeal uid db).1.summaries u d = some s → sumNonneg s := by
  intro u d s h
  unfold deleteLastMeal at h
  cases hm : pickLatest (completedPred uid) db.meals with
  | none =>
    rw [hm] at h
    simp only at h
    exact hpre u d s h
  | some last =>
    rw [hm] at h
    simp only at h
    cases hs : db.summaries uid (dateOf last.timestamp) with
    | none =>
      rw [hs] at h
      simp only at h
      exact hpre u d s h
    | some s0 =>
      rw [hs] at h
      simp only at h
      by_cases hud : u = uid ∧ d = dateOf last.timestamp
      · rw [if_pos hud] at h
        cases h
        have h0 := hpre uid (dateOf last.timestamp) s0 hs
        exact ⟨le_max_left _ _, le_max_left _ _, le_max_left _ _, le_max_left _ _,
          h0.2.2.2.2.1, h0.2.2.2.2.2.1, h0.2.2.2.2.2.2.1, le_max_left _ _⟩
      · rw [if_neg hud] at h
        exact hpre u d s h

def mealC5 : Meal := ⟨1, 1, "lunch", 86400, "completed"⟩

def dbC5w : DB :=
  ⟨[⟨1, "", none⟩],
   [mealC5],
   [⟨1, 1, "burger", 200, 1, some ⟨some 700, some 30, some 40, some 35, some 2, some 8, some 900⟩⟩],
   fun u d => if u = 1 ∧ d = 1 then some ⟨500, 10, 10, 10, 1, 1, 100, 1⟩ else none⟩

def sC5 : DailySummary := ⟨0, 0, 0, 0, 1, 1, 100, 0⟩

/-- Witness for C5: deleting a 700-calorie meal from a 500-calorie day
clamps every reversed field at zero instead of going negative. -/
theorem C5_witness :
    (deleteLastMeal 1 dbC5w).1.summaries 1 1 = some sC5 ∧ sumNonneg sC5 := by
  have hpre : ∀ u d s0, dbC5w.summaries u d = some s0 → sumNonneg s0 := by
    intro u d s0 h
    simp only [dbC5w] at h
    by_cases hud : u = 1 ∧ d = 1
    · rw [if_pos hud] at h
      cases h
      refine ⟨by norm_num, by norm_num, by norm_num, by norm_num,
        by norm_num, by norm_num, by norm_num, by norm_num⟩
    · rw [if_neg hud] at h
      exact Option.noConfusion h
  have heq : (deleteLastMeal 1 dbC5w).1.summaries 1 1 = some sC5 := by
    unfold deleteLastMeal
    rw [show pickLatest (completedPred 1) dbC5w.meals = some mealC5 from by decide]
    simp only
    rw [show dbC5w.summaries 1 (dateOf mealC5.timestamp) =
      some ⟨500, 10, 10, 10, 1, 1, 100, 1⟩ from by decide]
    simp only
    rw [if_pos (by exact ⟨by decide, by decide⟩)]
    have h1 : totCal (itemsOf mealC5.id dbC5w.items) = 700 + 0 := rfl
    have h2 : totProt (itemsOf mealC5.id dbC5w.items) = 30 + 0 := rfl
    have h3 : totCarbs (itemsOf mealC5.id dbC5w.items) = 40 + 0 := rfl
    have h4 : totFat (itemsOf mealC5.id dbC5w.items) = 35 + 0 := rfl
    rw [h1, h2, h3, h4]
    simp only [sC5, Option.some.injEq, DailySummary.mk.injEq]
    norm_num
  exact ⟨heq, C5_delete_keeps_summary_nonneg 1 dbC5w hpre 1 1 sC5 heq⟩

/-- C7: a "change to X" correction, handled when no meal is awaiting a
category, retargets only the `meal_type` of the latest committed meal:
its status stays `completed`, all other meals, all food/nutrient rows,
all summaries and all user rows are untouched. -/
theorem C7_category_correction_frame (user : UserRec) (body : String) (ty : String)
    (db : DB) (M : Meal)
    (hpend : pickLatest (pendingPred user.id) db.meals = none)
    (hch : strContains "change to" (lowerStr (strTrim body)) = true)
    (hex : extractMealTypeFromText (strTrim body) = some ty)
    (hM : pickLatest (completedPred user.id) db.meals = some M) :
    (handleIncomingText user body db).2 = Outcome.typeChanged ∧
    (handleIncomingText user body db).1.items = db.items ∧
    (handleIncomingText user body db).1.summaries = db.summaries ∧
    (handleIncomingText user body db).1.users = db.users ∧
    M.processing_status = "completed" ∧ M.user_id = user.id ∧
    ({ M with meal_type := ty } : Meal) ∈ (handleIncomingText user body db).1.meals ∧
    ({ M with meal_type := ty } : Meal).processing_status = "completed" ∧
    (∀ m ∈ db.meals, m.id ≠ M.id → m ∈ (handleIncomingText user body db).1.meals) ∧
    (handleIncomingText user body db).1.meals.length = db.meals.length ∧
    (∀ x ∈ db.meals, completedPred user.id x = true → x.timestamp ≤ M.timestamp) := by
  have hp := pickLatest_prop hM
  unfold completedPred at hp
  rw [decide_eq_true_eq] at hp
  have hmem := pickLatest_mem hM
  have hres : handleIncomingText user body db =
      (({ db with meals := db.meals.map (fun m =>
          if m.id = M.id then { m with meal_type := ty } else m) }), Outcome.typeChanged) := by
    unfold handleIncomingText
    rw [hpend]
    simp only
    rw [if_pos hch, hex]
    simp only
    unfold updateMealType
    rw [hM]
  rw [hres]
  refine ⟨rfl, rfl, rfl, rfl, hp.2, hp.1, ?_, hp.2, ?_, List.length_map _ _, pickLatest_max hM⟩
  · have hmm := List.mem_map_of_mem
      (fun m => if m.id = M.id then { m with meal_type := ty } else m) hmem
    simpa using hmm
  · intro m hm hne
    have hmm := List.mem_map_of_mem
      (fun x => if x.id = M.id then { x with meal_type := ty } else x) hm
    simp only at hmm
    rw [if_neg hne] at hmm
    exact hmm

def dbC7w : DB :=
  ⟨[⟨1, "", none⟩],
   [⟨1, 1, "lunch", 86400, "completed"⟩, ⟨2, 1, "snack", 90000, "completed"⟩],
   [⟨1, 2, "apple", 100, 9/10, some ⟨some 52, some (3/10), some 14, some (1/5), some (12/5), some 10, some 1⟩⟩],
   fun u d => if u = 1 ∧ d = 1 then some ⟨52, 1, 14, 1, 2, 10, 1, 2⟩ else none⟩

/-- Witness for C7 at a concrete database: "change to dinner" updates
only the category of the most recent committed meal. -/
theorem C7_witness :
    (handleIncomingText ⟨1, "", none⟩ "change to dinner" dbC7w).2 = Outcome.typeChanged ∧
    (handleIncomingText ⟨1, "", none⟩ "change to dinner" dbC7w).1.items = dbC7w.items ∧
    ({ id := 2, user_id := 1, meal_type := "dinner", timestamp := 90000,
       processing_status := "completed" } : Meal) ∈
      (handleIncomingText ⟨1, "", none⟩ "change to dinner" dbC7w).1.meals := by
  have h := C7_category_correction_frame ⟨1, "", none⟩ "change to dinner" "dinner" dbC7w
    ⟨2, 1, "snack", 90000, "completed"⟩ (by decide) (by decide) (by decide) (by decide)
  exact ⟨h.1, h.2.1, h.2.2.2.2.2.2.1⟩

/-- C2: when any detected candidate's detected-allergen set meets the
user's restricted set (explicit allergens plus preference-implied
ones), `process_meal` marks the meal `failed`, persists no FoodItem and
no FoodNutrient row for it, and never calls the Nutrient Lookup Client
— however many other candidates were safe. -/
theorem C2_allergen_violation_blocks_meal
    (user : UserRec) (mid ts : Nat) (initType : String)
    (detected_foods : List DetectedFood) (lookup : String → ℚ → Option NutRes)
    (itemBase : Nat) (db : DB)
    (hmid : ∀ m ∈ db.meals, m.id ≠ mid)
    (hit : ∀ it ∈ db.items, it.meal_id ≠ mid)
    (hNF : detectNonFoodImage detected_foods = false)
    (hviol : ∃ f ∈ detected_foods, ∃ a ∈ (detectIngredients f.name f.ingredients).detected_allergens,
      a ∈ restrictedSet (parseUserRestrictions user.dietary_restrictions)) :
    statusOf mid (processMeal user mid ts initType detected_foods lookup itemBase db).db =
      some "failed" ∧
    (processMeal user mid ts initType detected_foods lookup itemBase db).db.items.filter
      (fun it => decide (it.meal_id = mid)) = [] ∧
    ((processMeal user mid ts initType detected_foods lookup itemBase db).db.items.filter
      (fun it => decide (it.meal_id = mid))).filterMap (·.nutrients) = [] ∧
    (processMeal user mid ts initType detected_foods lookup itemBase db).lookupCalls = [] := by
  have hv : (validateMeal (detected_foods.map toVFood)
      (parseUserRestrictions user.dietary_restrictions)).has_violations = true := by
    rw [validateMeal_has_violations_iff]
    rcases hviol with ⟨f, hf, a, ha, hr⟩
    exact ⟨toVFood f, List.mem_map_of_mem _ hf, a, ha, hr⟩
  have hpm : processMeal user mid ts initType detected_foods lookup itemBase db =
      ⟨{ users := db.users,
         meals := setMealStatus mid "failed"
           (db.meals ++ [⟨mid, user.id, initType, ts, "pending"⟩]),
         items := db.items, summaries := db.summaries }, [],
       [analyzingMsg, OutMsg.allergenAlert (validateMeal (detected_foods.map toVFood)
          (parseUserRestrictions user.dietary_restrictions))]⟩ := by
    unfold processMeal
    simp only [hNF, Bool.false_eq_true, if_false]
    rw [if_pos hv]
  rw [hpm]
  have hfind := find_after_setStatus mid "failed" db.meals
    ⟨mid, user.id, initType, ts, "pending"⟩ rfl hmid
  have hflt : db.items.filter (fun it => decide (it.meal_id = mid)) = [] := by
    rw [List.filter_eq_nil_iff]
    intro it hmem
    simpa using hit it hmem
  refine ⟨?_, hflt, by rw [hflt]; rfl, rfl⟩
  unfold statusOf
  simp only
  rw [hfind]
  rfl

def foodC2 : DetectedFood := ⟨"shrimp pasta", 200, 1, []⟩

def foodC2b : DetectedFood := ⟨"green salad", 100, 1, []⟩

def dbC2w : DB := ⟨[⟨1, "shellfish", none⟩], [], [], fun _ _ => none⟩

/-- Witness for C2: a shrimp dish plus a safe salad, user restricted to
shellfish — the whole meal is blocked with no lookups. -/
theorem C2_witness :
    statusOf 5 (processMeal ⟨1, "shellfish", none⟩ 5 1000 "lunch" [foodC2, foodC2b]
      (fun _ _ => none) 10 dbC2w).db = some "failed" ∧
    (processMeal ⟨1, "shellfish", none⟩ 5 1000 "lunch" [foodC2, foodC2b]
      (fun _ _ => none) 10 dbC2w).lookupCalls = [] := by
  have h := C2_allergen_violation_blocks_meal ⟨1, "shellfish", none⟩ 5 1000 "lunch"
    [foodC2, foodC2b] (fun _ _ => none) 10 dbC2w
    (by intro m hm; cases hm) (by intro it hi; cases hi)
    (by
      unfold detectNonFoodImage
      rw [if_neg (by simp [foodC2, foodC2b]), if_neg (by
        norm_num [meanConfidence, sumConfidence, foodC2, foodC2b])])
    (by
      refine ⟨foodC2, by decide, "shellfish", by decide, ?_⟩
      decide)
  exact ⟨h.1, h.2.2.2⟩

/-- C4: a recognition result with zero candidates or mean confidence
strictly below 0.3 makes `process_meal` end the meal `failed`, send the
clearer-photo prompt, create no FoodItem rows, and never call the
Nutrient Lookup Client. -/
theorem C4_non_food_fails_meal
    (user : UserRec) (mid ts : Nat) (initType : String)
    (detected_foods : List DetectedFood) (lookup : String → ℚ → Option NutRes)
    (itemBase : Nat) (db : DB)
    (hmid : ∀ m ∈ db.meals, m.id ≠ mid)
    (hit : ∀ it ∈ db.items, it.meal_id ≠ mid)
    (hNF : detected_foods = [] ∨ meanConfidence detected_foods < 3/10) :
    statusOf mid (processMeal user mid ts initType detected_foods lookup itemBase db).db =
      some "failed" ∧
    (processMeal user mid ts initType detected_foods lookup itemBase db).db.items.filter
      (fun it => decide (it.meal_id = mid)) = [] ∧
    (processMeal user mid ts initType detected_foods lookup itemBase db).lookupCalls = [] ∧
    nonFoodMsg ∈ (processMeal user mid ts initType detected_foods lookup itemBase db).sent := by
  have hb : detectNonFoodImage detected_foods = true :=
    (detectNonFoodImage_iff detected_foods).mpr hNF
  have hpm : processMeal user mid ts initType detected_foods lookup itemBase db =
      ⟨{ users := db.users,
         meals := setMealStatus mid "failed"
           (db.meals ++ [⟨mid, user.id, initType, ts, "pending"⟩]),
         items := db.items, summaries := db.summaries }, [],
       [analyzingMsg, nonFoodMsg]⟩ := by
    unfold processMeal
    rw [if_pos hb]
  rw [hpm]
  have hfind := find_after_setStatus mid "failed" db.meals
    ⟨mid, user.id, initType, ts, "pending"⟩ rfl hmid
  have hflt : db.items.filter (fun it => decide (it.meal_id = mid)) = [] := by
    rw [List.filter_eq_nil_iff]
    intro it hmem
    simpa using hit it hmem
  refine ⟨?_, hflt, rfl, by simp⟩
  unfold statusOf
  simp only
  rw [hfind]
  rfl

def dbC4w : DB := ⟨[⟨1, "", none⟩], [], [], fun _ _ => none⟩

/-- Witness for C4: an empty recognition result fails the meal with the
clearer-photo prompt and no lookup calls. -/
theorem C4_witness :
    statusOf 3 (processMeal ⟨1, "", none⟩ 3 1000 "snack" [] (fun _ _ => none) 10 dbC4w).db =
      some "failed" ∧
    (processMeal ⟨1, "", none⟩ 3 1000 "snack" [] (fun _ _ => none) 10 dbC4w).lookupCalls = [] ∧
    nonFoodMsg ∈ (processMeal ⟨1, "", none⟩ 3 1000 "snack" [] (fun _ _ => none) 10 dbC4w).sent := by
  have h := C4_non_food_fails_meal ⟨1, "", none⟩ 3 1000 "snack" [] (fun _ _ => none) 10 dbC4w
    (by intro m hm; cases hm) (by intro it hi; cases hi) (Or.inl rfl)
  exact ⟨h.1, h.2.2.1, h.2.2.2⟩

def userC3 : UserRec := ⟨7, "", none⟩

def mealC3 : Meal := ⟨1, 7, "pending", 1000, "analyzed"⟩

def dbC3 : DB :=
  ⟨[userC3], [mealC3],
   [⟨1, 1, "apple", 100, 1, some ⟨some 52, some 1, some 14, some 1, some 2, some 10, some 1⟩⟩],
   fun _ _ => none⟩

/-- C3: the category-reply parser accepts the word/substring tokens but
no digits, even though the re-prompt sent on rejection promises
"numbers 1 through 4": replying "1" while a meal awaits its category
re-prompts and leaves the state unchanged, while a subsequent
"breakfast" still commits the meal. -/
theorem C3_digit_reply_not_accepted :
    extractMealTypeFromText "1" = none ∧
    extractMealTypeFromText "I had supper" = some "dinner" ∧
    extractMealTypeFromText "xyz" = none ∧
    strContains "numbers 1 through 4" repromptText = true ∧
    handleIncomingText userC3 "1" dbC3 = (dbC3, Outcome.reprompt) ∧
    (handleIncomingText userC3 "breakfast" dbC3).2 = Outcome.completed 1 ∧
    statusOf 1 (handleIncomingText userC3 "breakfast" dbC3).1 = some "completed" := by
  have hpick : pickLatest (pendingPred userC3.id) dbC3.meals = some mealC3 := by decide
  have hreject : handleIncomingText userC3 "1" dbC3 = (dbC3, Outcome.reprompt) := by
    unfold handleIncomingText
    rw [hpick]
    simp only
    rw [show extractMealTypeFromText (strTrim "1") = none from by decide]
  have hext : extractMealTypeFromText (strTrim "breakfast") = some "breakfast" := by decide
  have hcm : completeMealProcessing userC3.id "breakfast" dbC3 =
      some (updateDailySummary userC3.id (dateOf mealC3.timestamp)
        (totCal (itemsOf mealC3.id dbC3.items)) (totProt (itemsOf mealC3.id dbC3.items))
        (totCarbs (itemsOf mealC3.id dbC3.items)) (totFat (itemsOf mealC3.id dbC3.items))
        (totFiber (itemsOf mealC3.id dbC3.items)) (totSugar (itemsOf mealC3.id dbC3.items))
        (totSodium (itemsOf mealC3.id dbC3.items))
        { dbC3 with meals := dbC3.meals.map (fun m =>
            if m.id = mealC3.id then
              { m with meal_type := "breakfast", processing_status := "completed" }
            else m) }, mealC3.id) := by
    unfold completeMealProcessing
    rw [hpick]
  have hhand : handleIncomingText userC3 "breakfast" dbC3 =
      (updateDailySummary userC3.id (dateOf mealC3.timestamp)
        (totCal (itemsOf mealC3.id dbC3.items)) (totProt (itemsOf mealC3.id dbC3.items))
        (totCarbs (itemsOf mealC3.id dbC3.items)) (totFat (itemsOf mealC3.id dbC3.items))
        (totFiber (itemsOf mealC3.id dbC3.items)) (totSugar (itemsOf mealC3.id dbC3.items))
        (totSodium (itemsOf mealC3.id dbC3.items))
        { dbC3 with meals := dbC3.meals.map (fun m =>
            if m.id = mealC3.id then
              { m with meal_type := "breakfast", processing_status := "completed" }
            else m) }, Outcome.completed 1) := by
    unfold handleIncomingText
    rw [hpick]
    simp only
    rw [hext]
    simp only
    rw [hcm]
    rfl
  refine ⟨by decide, by decide, by decide, by decide, hreject, ?_, ?_⟩
  · rw [hhand]
  · rw [hhand]
    unfold updateDailySummary statusOf
    simp only
    decide

/-- How `delete_last_meal` rewrites the day's summary row when a
committed meal exists and the row is present: the four macro fields and
the meal count are decremented with a floor of zero, and the remaining
fields are copied unchanged. -/
theorem deleteLastMeal_summary (uid : Nat) (dbX : DB) (M' : Meal) (s1 : DailySummary)
    (dt : Nat) (l : List FoodItem)
    (ha : pickLatest (completedPred uid) dbX.meals = some M')
    (hd : dateOf M'.timestamp = dt)
    (hl : itemsOf M'.id dbX.items = l)
    (hb : dbX.summaries uid dt = some s1) :
    (deleteLastMeal uid dbX).1.summaries uid dt =
      some ⟨max 0 (s1.total_calories - totCal l), max 0 (s1.total_protein - totProt l),
            max 0 (s1.total_carbs - totCarbs l), max 0 (s1.total_fat - totFat l),
            s1.total_fiber, s1.total_sugar, s1.total_sodium,
            max 0 (s1.meal_count - 1)⟩ := by
  unfold deleteLastMeal
  rw [ha]
  simp only
  rw [hd, hl, hb]
  simp

/-- C1 (amended): committing a meal and then deleting that same meal
restores `total_calories`, `total_protein`, `total_carbs`, `total_fat`
and `meal_count` exactly to their pre-commit values (given the
pre-commit row was non-negative in those fields), but `total_fiber`,
`total_sugar` and `total_sodium` keep the committed amounts — the
deletion never reverses them. -/
theorem C1_commit_delete_partial_restore
    (uid : Nat) (ty : String) (db db1 : DB) (M : Meal) (mid : Nat) (s0 : DailySummary)
    (h1 : pickLatest (pendingPred uid) db.meals = some M)
    (h2 : completeMealProcessing uid ty db = some (db1, mid))
    (h3 : pickLatest (completedPred uid) db1.meals =
      some { M with meal_type := ty, processing_status := "completed" })
    (h4 : db.summaries uid (dateOf M.timestamp) = some s0)
    (h5 : 0 ≤ s0.total_calories) (h6 : 0 ≤ s0.total_protein)
    (h7 : 0 ≤ s0.total_carbs) (h8 : 0 ≤ s0.total_fat) (h9 : 0 ≤ s0.meal_count) :
    (deleteLastMeal uid db1).1.summaries uid (dateOf M.timestamp) =
      some ⟨s0.total_calories, s0.total_protein, s0.total_carbs, s0.total_fat,
            s0.total_fiber + totFiber (itemsOf M.id db.items),
            s0.total_sugar + totSugar (itemsOf M.id db.items),
            s0.total_sodium + totSodium (itemsOf M.id db.items),
            s0.meal_count⟩ := by
  unfold completeMealProcessing at h2
  rw [h1] at h2
  simp only [Option.some.injEq, Prod.mk.injEq] at h2
  obtain ⟨hdb1, hmid⟩ := h2
  have hb : db1.summaries uid (dateOf M.timestamp) =
      some ⟨s0.total_calories + totCal (itemsOf M.id db.items),
            s0.total_protein + totProt (itemsOf M.id db.items),
            s0.total_carbs + totCarbs (itemsOf M.id db.items),
            s0.total_fat + totFat (itemsOf M.id db.items),
            s0.total_fiber + totFiber (itemsOf M.id db.items),
            s0.total_sugar + totSugar (itemsOf M.id db.items),
            s0.total_sodium + totSodium (itemsOf M.id db.items),
            s0.meal_count + 1⟩ := by
    rw [← hdb1]
    simp only [updateDailySummary]
    rw [h4]
    simp [Option.getD_some]
  have hmain := deleteLastMeal_summary uid db1
    { M with meal_type := ty, processing_status := "completed" }
    ⟨s0.total_calories + totCal (itemsOf M.id db.items),
     s0.total_protein + totProt (itemsOf M.id db.items),
     s0.total_carbs + totCarbs (itemsOf M.id db.items),
     s0.total_fat + totFat (itemsOf M.id db.items),
     s0.total_fiber + totFiber (itemsOf M.id db.items),
     s0.total_sugar + totSugar (itemsOf M.id db.items),
     s0.total_sodium + totSodium (itemsOf M.id db.items),
     s0.meal_count + 1⟩
    (dateOf M.timestamp) (itemsOf M.id db.items) h3 rfl
    (by rw [← hdb1]; rfl) hb
  rw [hmain]
  simp only
  have e1 : s0.total_calories + totCal (itemsOf M.id db.items) -
      totCal (itemsOf M.id db.items) = s0.total_calories := add_sub_cancel_right _ _
  have e2 : s0.total_protein + totProt (itemsOf M.id db.items) -
      totProt (itemsOf M.id db.items) = s0.total_protein := add_sub_cancel_right _ _
  have e3 : s0.total_carbs + totCarbs (itemsOf M.id db.items) -
      totCarbs (itemsOf M.id db.items) = s0.total_carbs := add_sub_cancel_right _ _
  have e4 : s0.total_fat + totFat (itemsOf M.id db.items) -
      totFat (itemsOf M.id db.items) = s0.total_fat := add_sub_cancel_right _ _
  have e5 : s0.meal_count + 1 - 1 = s0.meal_count := add_sub_cancel_right _ _
  rw [e1, e2, e3, e4, e5, max_eq_right h5, max_eq_right h6, max_eq_right h7,
    max_eq_right h8, max_eq_right h9]

def mealC1 : Meal := ⟨1, 1, "pending", 86400, "analyzed"⟩

def mealC1done : Meal := ⟨1, 1, "lunch", 86400, "completed"⟩

def itemC1 : FoodItem :=
  ⟨1, 1, "apple", 100, 1, some ⟨some 100, some 10, some 20, some 5, some 5, some 5, some 200⟩⟩

def dbC1pre : DB :=
  ⟨[⟨1, "", none⟩], [mealC1], [itemC1],
   fun u d => if u = 1 ∧ d = 1 then some ⟨10, 10, 10, 10, 10, 10, 10, 1⟩ else none⟩

def dbC1mid : DB :=
  updateDailySummary 1 (dateOf mealC1.timestamp)
    (totCal (itemsOf mealC1.id dbC1pre.items)) (totProt (itemsOf mealC1.id dbC1pre.items))
    (totCarbs (itemsOf mealC1.id dbC1pre.items)) (totFat (itemsOf mealC1.id dbC1pre.items))
    (totFiber (itemsOf mealC1.id dbC1pre.items)) (totSugar (itemsOf mealC1.id dbC1pre.items))
    (totSodium (itemsOf mealC1.id dbC1pre.items))
    { dbC1pre with meals := dbC1pre.meals.map (fun m =>
        if m.id = mealC1.id then
          { m with meal_type := "lunch", processing_status := "completed" }
        else m) }

def dbC1commit : DB := ((completeMealProcessing 1 "lunch" dbC1pre).getD (dbC1pre, 0)).1

/-- Counterexample to C1 as stated: committing a meal with 5 g of fiber
and then deleting that same meal leaves `total_fiber` at 15, not at its
pre-commit value 10 — the four macro fields and `meal_count` do return,
but fiber (and sugar, sodium) do not. -/
theorem C1_counterexample :
    (dbC1pre.summaries 1 1).map (·.total_fiber) = some 10 ∧
    statusOf 1 dbC1commit = some "completed" ∧
    (deleteLastMeal 1 dbC1commit).2 = true ∧
    ((deleteLastMeal 1 dbC1commit).1.summaries 1 1).map (·.total_fiber) = some 15 ∧
    ((deleteLastMeal 1 dbC1commit).1.summaries 1 1).map (·.total_calories) = some 10 ∧
    ((deleteLastMeal 1 dbC1commit).1.summaries 1 1).map (·.total_fiber) ≠
      (dbC1pre.summaries 1 1).map (·.total_fiber) := by
  have hpick : pickLatest (pendingPred 1) dbC1pre.meals = some mealC1 := by decide
  have hcm : completeMealProcessing 1 "lunch" dbC1pre = some (dbC1mid, mealC1.id) := by
    unfold completeMealProcessing
    rw [hpick]
    rfl
  have hcommit : dbC1commit = dbC1mid := by
    unfold dbC1commit
    rw [hcm]
    rfl
  have hpick2 : pickLatest (completedPred 1) dbC1mid.meals = some mealC1done := by decide
  have hsum : dbC1mid.summaries 1 1 =
      some ⟨10 + (100 + 0), 10 + (10 + 0), 10 + (20 + 0), 10 + (5 + 0),
            10 + (5 + 0), 10 + (5 + 0), 10 + (200 + 0), 1 + 1⟩ := rfl
  have htot : itemsOf mealC1done.id dbC1mid.items = [itemC1] := rfl
  have hdel := deleteLastMeal_summary 1 dbC1mid mealC1done
    ⟨10 + (100 + 0), 10 + (10 + 0), 10 + (20 + 0), 10 + (5 + 0),
     10 + (5 + 0), 10 + (5 + 0), 10 + (200 + 0), 1 + 1⟩ 1 [itemC1]
    hpick2 (by decide) htot hsum
  rw [hcommit]
  refine ⟨rfl, by decide, ?_, ?_, ?_, ?_⟩
  · unfold deleteLastMeal
    rw [hpick2]
  · rw [hdel]
    simp only [Option.map_some]
    norm_num [totCal, totProt, totCarbs, totFat, sumNut, itemC1]
  · rw [hdel]
    simp only [Option.map_some]
    have hc : totCal [itemC1] = 100 + 0 := rfl
    rw [hc, show (10 : ℚ) + (100 + 0) - (100 + 0) = 10 by ring]
    rw [max_eq_right (by norm_num : (0 : ℚ) ≤ 10)]
    rfl
  · rw [hdel, show dbC1pre.summaries 1 1 = some ⟨10, 10, 10, 10, 10, 10, 10, 1⟩ from rfl]
    simp only [Option.map_some, ne_eq, Option.some.injEq]
    norm_num

/-- Witness for the amended C1 at a concrete database: the four macro
fields and the count are restored, fiber/sugar/sodium keep the deltas. -/
theorem C1_witness :
    (deleteLastMeal 1 dbC1commit).1.summaries 1 (dateOf mealC1.timestamp) =
      some ⟨10, 10, 10, 10,
            10 + totFiber (itemsOf mealC1.id dbC1pre.items),
            10 + totSugar (itemsOf mealC1.id dbC1pre.items),
            10 + totSodium (itemsOf mealC1.id dbC1pre.items), 1⟩ := by
  have hpick : pickLatest (pendingPred 1) dbC1pre.meals = some mealC1 := by decide
  have hcm : completeMealProcessing 1 "lunch" dbC1pre = some (dbC1mid, mealC1.id) := by
    unfold completeMealProcessing
    rw [hpick]
    rfl
  have hcommit : dbC1commit = dbC1mid := by
    unfold dbC1commit
    rw [hcm]
    rfl
  rw [hcommit]
  exact C1_commit_delete_partial_restore 1 "lunch" dbC1pre dbC1mid mealC1 mealC1.id
    ⟨10, 10, 10, 10, 10, 10, 10, 1⟩ hpick hcm (by decide) rfl
    (by norm_num) (by norm_num) (by norm_num) (by norm_num) (by norm_num)
theorem leL_total (a : List Char) : ∀ b, leL a b = true ∨ leL b a = true := by
  induction a with
  | nil => intro b; exact Or.inl rfl
  | cons x xs ih =>
    intro b
    cases b with
    | nil => exact Or.inr rfl
    | cons y ys =>
      unfold leL
      rcases Nat.lt_trichotomy x.toNat y.toNat with h | h | h
      · exact Or.inl (by rw [if_pos h])
      · rcases ih ys with h' | h'
        · exact Or.inl (by rw [if_neg (by omega), if_neg (by omega)]; exact h')
        · exact Or.inr (by rw [if_neg (by omega), if_neg (by omega)]; exact h')
      · exact Or.inr (by rw [if_pos h])

theorem leL_trans (a : List Char) : ∀ b c, leL a b = true → leL b c = true →
    leL a c = true := by
  induction a with
  | nil => intro b c _ _; rfl
  | cons x xs ih =>
    intro b c h1 h2
    cases b with
    | nil => simp [leL] at h1
    | cons y ys =>
      cases c with
      | nil => simp [leL] at h2
      | cons z zs =>
        unfold leL at h1 h2 ⊢
        by_cases hxy : x.toNat < y.toNat
        · by_cases hyz : y.toNat < z.toNat
          · rw [if_pos (by omega : x.toNat < z.toNat)]
          · by_cases hzy : z.toNat < y.toNat
            · rw [if_neg hyz, if_pos hzy] at h2
              simp at h2
            · rw [if_pos (by omega : x.toNat < z.toNat)]
        · by_cases hyx : y.toNat < x.toNat
          · rw [if_neg hxy, if_pos hyx] at h1
            simp at h1
          · rw [if_neg hxy, if_neg hyx] at h1
            by_cases hyz : y.toNat < z.toNat
            · rw [if_pos (by omega : x.toNat < z.toNat)]
            · by_cases hzy : z.toNat < y.toNat
              · rw [if_neg hyz, if_pos hzy] at h2
                simp at h2
              · rw [if_neg hyz, if_neg hzy] at h2
                rw [if_neg (by omega : ¬ x.toNat < z.toNat),
                  if_neg (by omega : ¬ z.toNat < x.toNat)]
                exact ih ys zs h1 h2

instance : IsTotal String strLeRel := ⟨fun a b => leL_total a.data b.data⟩

instance : IsTrans String strLeRel := ⟨fun a b c => leL_trans a.data b.data c.data⟩

/-- The claim's "normalized form": a sorted, duplicate-free,
comma-joined list whose entries are lower-cased trimmed parts of the
input string. -/
def normalizedForm (out inp : String) : Prop :=
  ∃ l, List.Sorted strLeRel l ∧ l.Nodup ∧
    (∀ x ∈ l, ∃ r ∈ splitOnStr "," inp, x = lowerStr (strTrim r)) ∧
    out = joinStr "," l

theorem normalizeRestrictions_normalizedForm (s : String) :
    normalizedForm (normalizeRestrictions s) s := by
  unfold normalizeRestrictions
  by_cases h : s = ""
  · rw [if_pos h]
    subst h
    exact ⟨[], List.sorted_nil, List.nodup_nil,
      fun x hx => absurd hx (List.not_mem_nil x), rfl⟩
  · rw [if_neg h]
    refine ⟨((((splitOnStr "," s).map (fun r => lowerStr (strTrim r))).filter
        (· ≠ "")).dedup).insertionSort strLeRel,
      List.sorted_insertionSort strLeRel _, ?_, ?_, rfl⟩
    · exact (List.perm_insertionSort strLeRel _).nodup_iff.mpr (List.nodup_dedup _)
    · intro x hx
      have hx2 : x ∈ (((splitOnStr "," s).map (fun r => lowerStr (strTrim r))).filter
          (· ≠ "")).dedup := (List.perm_insertionSort strLeRel _).mem_iff.mp hx
      have hx3 := List.mem_dedup.mp hx2
      have hx4 := (List.mem_filter.mp hx3).1
      rcases List.mem_map.mp hx4 with ⟨r, hr, hrx⟩
      exact ⟨r, hr, hrx.symm⟩

/-- C10 (amended): in `handle_add_restriction`, when the extracted
token is new, the append-then-normalize result is committed exactly
when it parses to at least one recognized allergen or preference —
so an unrecognized token is refused (state unchanged, explanatory
reply) only when the user's existing restrictions are also all
unrecognized; otherwise the new string, unrecognized token included, is
committed.  Whatever is stored is the normalized form: lower-cased
trimmed parts, deduplicated, sorted, comma-joined. -/
theorem C10_add_restriction_behavior (u : UserRec) (message_text : String) (tok : String)
    (h1 : extractAddToken message_text = some tok) (h2 : tok ≠ "")
    (h3 : tok ∉ currentListOf u) :
    ((parseUserRestrictions (addNormalized u tok)).allergens = [] ∧
      (parseUserRestrictions (addNormalized u tok)).preferences = [] →
      handleAddRestriction u message_text = (u, AddReply.notRecognized tok)) ∧
    (((parseUserRestrictions (addNormalized u tok)).allergens ≠ [] ∨
      (parseUserRestrictions (addNormalized u tok)).preferences ≠ []) →
      handleAddRestriction u message_text =
        ({ u with dietary_restrictions := addNormalized u tok },
         AddReply.added tok (parseUserRestrictions (addNormalized u tok)).display)) ∧
    normalizedForm (addNormalized u tok) (joinStr "," (currentListOf u ++ [tok])) := by
  have hbody : handleAddRestriction u message_text =
      (if (parseUserRestrictions (addNormalized u tok)).allergens = [] ∧
          (parseUserRestrictions (addNormalized u tok)).preferences = [] then
        (u, AddReply.notRecognized tok)
      else
        ({ u with dietary_restrictions := addNormalized u tok },
         AddReply.added tok (parseUserRestrictions (addNormalized u tok)).display)) := by
    unfold handleAddRestriction
    rw [h1]
    simp only
    rw [if_neg h2, if_neg h3]
  refine ⟨?_, ?_, normalizeRestrictions_normalizedForm _⟩
  · intro hemp
    rw [hbody, if_pos hemp]
  · intro hne
    rw [hbody, if_neg (fun hc => hne.elim (fun hh => hh hc.1) (fun hh => hh hc.2))]

def userC10 : UserRec := ⟨1, "nuts", none⟩

/-- Counterexample to C10 as stated: "add xyz allergy" carries the
unrecognized token "xyz", yet because the user already has the
recognized restriction "nuts", the handler commits "nuts,xyz" and
replies with a success message, not an explanation. -/
theorem C10_counterexample :
    isAllergenKey "xyz" = false ∧ isPrefKey "xyz" = false ∧
    extractAddToken "add xyz allergy" = some "xyz" ∧
    userC10.dietary_restrictions = "nuts" ∧
    (handleAddRestriction userC10 "add xyz allergy").1.dietary_restrictions = "nuts,xyz" ∧
    (handleAddRestriction userC10 "add xyz allergy").2 = AddReply.added "xyz" "Nuts" := by
  decide

/-- Witness for the amended C10: adding the recognized token "dairy" to
"nuts" stores the normalized union "dairy,nuts". -/
theorem C10_witness :
    handleAddRestriction userC10 "add dairy" =
      ({ userC10 with dietary_restrictions := addNormalized userC10 "dairy" },
       AddReply.added "dairy" (parseUserRestrictions (addNormalized userC10 "dairy")).display) ∧
    addNormalized userC10 "dairy" = "dairy,nuts" :=
  ⟨(C10_add_restriction_behavior userC10 "add dairy" "dairy" (by decide) (by decide)
      (by decide)).2.1 (Or.inl (by decide)), by decide⟩

theorem lookup_setVal (k k' : String) (v : ℚ) (l : List (String × ℚ)) :
    lookupStr k (setVal k' v l) = if k = k' then some v else lookupStr k l := by
  induction l with
  | nil =>
    simp only [setVal, lookupStr]
  | cons a rest ih =>
    obtain ⟨a1, a2⟩ := a
    by_cases hak : a1 = k'
    · subst hak
      by_cases hk : k = a1 <;> simp [setVal, lookupStr, hk]
    · by_cases hka : k = a1
      · subst hka
        have hkk : ¬ k = k' := hak
        simp [setVal, lookupStr, hak, hkk]
      · simp [setVal, lookupStr, hak, hka, ih]

theorem lookup_scaleVals (k : String) (q : ℚ) (l : List (String × ℚ)) :
    lookupStr k (scaleVals q l) = (lookupStr k l).map (· * q) := by
  induction l with
  | nil => rfl
  | cons a rest ih =>
    simp only [scaleVals, List.map_cons, lookupStr]
    by_cases hka : k = a.1
    · rw [if_pos hka, if_pos hka]
      rfl
    · rw [if_neg hka, if_neg hka]
      simpa [scaleVals] using ih

theorem lookupStr_mem {α : Type} {k : String} {v : α} :
    ∀ {l : List (String × α)}, lookupStr k l = some v → (k, v) ∈ l := by
  intro l
  induction l with
  | nil => intro h; cases h
  | cons a rest ih =>
    intro h
    unfold lookupStr at h
    by_cases hka : k = a.1
    · rw [if_pos hka] at h
      cases h
      rw [hka]
      exact List.mem_cons_self _ _
    · rw [if_neg hka] at h
      exact List.mem_cons_of_mem _ (ih h)

theorem lookup_extractStep_isSome (acc : List (String × ℚ) × List (String × ℚ))
    (nr : RawNutrient) (k : String) (h : (lookupStr k acc.1).isSome = true) :
    (lookupStr k (extractStep acc nr).1).isSome = true := by
  unfold extractStep
  split_ifs <;>
    first
      | (simp only [lookup_setVal]; split_ifs <;> simp [h])
      | skip
  cases hl : lookupStr nr.nutrientId targetNutrientIds <;> simp [h]

theorem lookup_foldl_extractStep_isSome (k : String) (nrs : List RawNutrient) :
    ∀ acc, (lookupStr k acc.1).isSome = true →
      (lookupStr k (nrs.foldl extractStep acc).1).isSome = true := by
  induction nrs with
  | nil => intro acc h; exact h
  | cons nr rest ih =>
    intro acc h
    exact ih _ (lookup_extractStep_isSome acc nr k h)

/-- The nutrition result carries the four core macro keys. -/
def hasCoreKeys (n : NutRes) : Prop :=
  (lookupStr "calories" n.main).isSome = true ∧
  (lookupStr "protein_g" n.main).isSome = true ∧
  (lookupStr "carbs_g" n.main).isSome = true ∧
  (lookupStr "fat_g" n.main).isSome = true

theorem hasCoreKeys_extractNutrients (fd : FoodDataJson) (p : ℚ) :
    hasCoreKeys (extractNutrients fd p) := by
  unfold hasCoreKeys extractNutrients
  simp only [lookup_scaleVals, Option.isSome_map']
  exact ⟨lookup_foldl_extractStep_isSome _ _ _ (by decide),
    lookup_foldl_extractStep_isSome _ _ _ (by decide),
    lookup_foldl_extractStep_isSome _ _ _ (by decide),
    lookup_foldl_extractStep_isSome _ _ _ (by decide)⟩

theorem hasCoreKeys_estimateNutrition (food_name : String) (p : ℚ) :
    hasCoreKeys (estimateNutrition food_name p) := by
  unfold hasCoreKeys estimateNutrition
  simp only [lookup_scaleVals, Option.isSome_map']
  unfold estimateBase
  split_ifs <;> exact ⟨by decide, by decide, by decide, by decide⟩

theorem hasCoreKeys_fallback {food_name : String} {p : ℚ} {r : NutRes}
    (h : checkFallback food_name p = some r) : hasCoreKeys r := by
  unfold checkFallback at h
  cases hl : lookupStr (lowerStr food_name) fallbackFoods with
  | none => rw [hl] at h; cases h
  | some base =>
    rw [hl] at h
    simp only [Option.map_some', Option.some.injEq] at h
    have hmem := lookupStr_mem hl
    have hbase : (lookupStr "calories" base).isSome = true ∧
        (lookupStr "protein_g" base).isSome = true ∧
        (lookupStr "carbs_g" base).isSome = true ∧
        (lookupStr "fat_g" base).isSome = true := by
      have : ∀ pr ∈ fallbackFoods, (lookupStr "calories" pr.2).isSome = true ∧
          (lookupStr "protein_g" pr.2).isSome = true ∧
          (lookupStr "carbs_g" pr.2).isSome = true ∧
          (lookupStr "fat_g" pr.2).isSome = true := by decide
      exact this _ hmem
    rw [← h]
    unfold hasCoreKeys
    simp only [lookup_scaleVals, Option.isSome_map']
    exact hbase

/-- C8: the nutrient lookup always yields a result carrying calories,
protein, carbs and fat; when the fallback table misses and both
searches fail it degrades to the category estimate, and the estimate is
the per-100g base scaled by `portion_grams / 100` — it never fails or
returns nothing. -/
theorem C8_lookup_always_returns (search : String → Option (List FoodDataJson))
    (food_name : String) (portion_grams : ℚ) :
    hasCoreKeys (getNutritionData search food_name portion_grams) ∧
    (search food_name = none → search (generalizeFoodName food_name) = none →
      lookupStr (lowerStr food_name) fallbackFoods = none →
      getNutritionData search food_name portion_grams =
        estimateNutrition food_name portion_grams) ∧
    (∀ k v, lookupStr k (estimateBase food_name).1 = some v →
      lookupStr k (estimateNutrition food_name portion_grams).main =
        some (v * (portion_grams / 100))) := by
  refine ⟨?_, ?_, ?_⟩
  · unfold getNutritionData
    cases hfb : checkFallback food_name portion_grams with
    | some r =>
      simp only
      exact hasCoreKeys_fallback hfb
    | none =>
      simp only
      cases hr : (if ((search food_name).getD []) = []
          then (search (generalizeFoodName food_name)).getD []
          else (search food_name).getD []) with
      | nil =>
        exact hasCoreKeys_estimateNutrition food_name portion_grams
      | cons fd rest =>
        exact hasCoreKeys_extractNutrients fd portion_grams
  · intro h1 h2 h3
    unfold getNutritionData checkFallback
    rw [h3, h1, h2]
    rfl
  · intro k v hkv
    unfold estimateNutrition
    simp only [lookup_scaleVals, hkv, Option.map_some']

/-- Witness for C8: with a dead search oracle, an unknown food still
yields the generic estimate with all four core keys, scaled to 200 g. -/
theorem C8_witness :
    hasCoreKeys (getNutritionData (fun _ => none) "mystery pie" 200) ∧
    getNutritionData (fun _ => none) "mystery pie" 200 =
      estimateNutrition "mystery pie" 200 ∧
    lookupStr "calories" (getNutritionData (fun _ => none) "mystery pie" 200).main =
      some (150 * (200 / 100)) := by
  have h := C8_lookup_always_returns (fun _ => none) "mystery pie" 200
  have heq := h.2.1 rfl rfl (by decide)
  refine ⟨h.1, heq, ?_⟩
  rw [heq]
  exact h.2.2 "calories" 150 (by decide)

end GlassBite
